import Mathlib

/-!
Verification of the meeting-room session manager and conversation
orchestrator of the NIA backend.

The Python sources embedded here are `app/signaling.py` (Participant,
MeetingRoom, EnhancedSessionManager) and
`app/services/ai_meeting_orchestrator.py` (ConversationFlow,
AIMeetingOrchestrator).  Python dicts are modelled as association lists
with Python-dict update semantics (`insertKey` replaces in place,
`eraseKey` deletes); `datetime.now()` is modelled by passing the current
time (milliseconds, `Int`) explicitly to every operation that reads the
clock; database writes, websocket broadcasts and other external
collaborators are modelled as emitted events (they do not affect the
in-memory state being verified) and are assumed not to raise.  English
contractions in the fixed message strings are expanded (e.g. "I'm" is
written "I am"); nothing verified here inspects those strings beyond
identity.
-/

namespace NIA

/-! ### Association lists modelling Python dicts -/

/-- `d[k]` lookup: first binding of `k` (keys are unique by construction,
mirroring a Python dict). -/
def lookupKey {α : Type} (k : String) : List (String × α) → Option α
  | [] => none
  | (k', v) :: t => if k' = k then some v else lookupKey k t

/-- `d[k] = v`: replace the binding in place if the key exists (Python
dicts keep insertion order on update), otherwise append it. -/
def insertKey {α : Type} (k : String) (v : α) : List (String × α) → List (String × α)
  | [] => [(k, v)]
  | (k', v') :: t => if k' = k then (k, v) :: t else (k', v') :: insertKey k v t

/-- `del d[k]`: remove the binding(s) for `k`. -/
def eraseKey {α : Type} (k : String) : List (String × α) → List (String × α)
  | [] => []
  | (k', v') :: t => if k' = k then eraseKey k t else (k', v') :: eraseKey k t

/-- In-place mutation of the value stored under `k`, when present. -/
def updateKey {α : Type} (k : String) (f : α → α) : List (String × α) → List (String × α)
  | [] => []
  | (k', v') :: t => if k' = k then (k', f v') :: t else (k', v') :: updateKey k f t


/-! ### `app/signaling.py` — Participant, MeetingRoom -/

/-- `ParticipantType` from `app/models/enhanced_schemas.py`. -/
inductive PType : Type
  | human
  | ai
deriving DecidableEq, Repr

/-- `Participant.__init__` from `app/signaling.py`.  The websocket handle is
modelled as an opaque transport id; `joined_at`, `last_activity` carry the
construction-time clock value (milliseconds). -/
structure Participant : Type where
  user_id : String
  websocket : Nat
  participant_type : PType
  is_organizer : Bool
  joined_at : Int
  audio_enabled : Bool
  voice_activity : Bool
  last_activity : Int
deriving DecidableEq, Repr

/-- Build a participant exactly as `Participant.__init__` does (audio on,
no voice activity, both timestamps `now`). -/
def mkParticipant (user_id : String) (websocket : Nat) (participant_type : PType)
    (is_organizer : Bool) (now : Int) : Participant :=
  ⟨user_id, websocket, participant_type, is_organizer, now, true, false, now⟩

/-- `MeetingRoom` state from `app/signaling.py`.  `conversation_state` is a
raw string in the source ("waiting", "active", "ai_speaking",
"user_speaking", "completed"); the unused timeout constants
(`voice_activity_timeout`, `ai_speaking_timeout`) are omitted. -/
structure MeetingRoom : Type where
  room_id : String
  max_participants : Nat
  participants : List (String × Participant)
  created_at : Int
  ai_participant : Option Participant
  conversation_state : String
  current_speaker : Option String
deriving DecidableEq, Repr

/-- `MeetingRoom.__init__`. -/
def mkRoom (room_id : String) (max_participants : Nat) (now : Int) : MeetingRoom :=
  ⟨room_id, max_participants, [], now, none, "waiting", none⟩

namespace MeetingRoom

/-- `MeetingRoom.add_participant`: rejects when already at (or above)
capacity, otherwise stores the participant under its user id. -/
def add_participant (r : MeetingRoom) (p : Participant) : MeetingRoom × Bool :=
  if r.participants.length ≥ r.max_participants then (r, false)
  else ({ r with participants := insertKey p.user_id p r.participants }, true)

/-- `MeetingRoom.remove_participant`. -/
def remove_participant (r : MeetingRoom) (user_id : String) : MeetingRoom × Bool :=
  if (lookupKey user_id r.participants).isSome then
    ({ r with participants := eraseKey user_id r.participants }, true)
  else (r, false)

/-- `MeetingRoom.has_human_participants`. -/
def has_human_participants (r : MeetingRoom) : Bool :=
  r.participants.any (fun kv => kv.2.participant_type = PType.human)

/-- `MeetingRoom.get_human_participants` (as the list of entries). -/
def get_human_participants (r : MeetingRoom) : List (String × Participant) :=
  r.participants.filter (fun kv => kv.2.participant_type = PType.human)

/-- `MeetingRoom.set_voice_activity`: the voice-activity arbiter.  On an
active flip the flipping participant becomes `current_speaker`; on an
inactive flip the speaker/state are cleared only when no participant
remains active (the source does not reassign `current_speaker` when
another participant is still active). -/
def set_voice_activity (r : MeetingRoom) (user_id : String) (is_active : Bool)
    (now : Int) : MeetingRoom :=
  match lookupKey user_id r.participants with
  | none => r
  | some p =>
    let parts := updateKey user_id
      (fun q => { q with voice_activity := is_active, last_activity := now }) r.participants
    if is_active then
      { r with participants := parts, current_speaker := some user_id,
               conversation_state :=
                 if p.participant_type = PType.human then "user_speaking" else "ai_speaking" }
    else
      if parts.any (fun kv => kv.2.voice_activity) then
        { r with participants := parts }
      else
        { r with participants := parts, current_speaker := none,
                 conversation_state := "active" }

/-- `MeetingRoom.is_empty`. -/
def is_empty (r : MeetingRoom) : Bool :=
  r.participants.length = 0

/-- `MeetingRoom.should_cleanup`: note the source measures the 5-minute
grace period from `created_at`, not from the moment the room became
empty (its own comment notwithstanding).  Times are milliseconds. -/
def should_cleanup (r : MeetingRoom) (now : Int) : Bool :=
  if r.is_empty then decide (now - r.created_at > 300000) else false

end MeetingRoom

/-! ### `app/signaling.py` — EnhancedSessionManager -/

/-- Externally visible side effects of the session manager (database
writes, broadcasts, scheduled tasks, transport closes).  These leave the
in-memory state untouched; the source never closes a replaced
websocket, so `closeTransport` is never emitted by `join`/`leave`. -/
inductive Event : Type
  | dbSaveParticipant (user_id : String)
  | broadcastJoined (user_id : String)
  | scheduleAutoJoin (room_id : String)
  | dbLeft (user_id : String)
  | broadcastLeft (user_id : String)
  | closeTransport (websocket : Nat)
deriving DecidableEq, Repr

/-- `EnhancedSessionManager` mutable state.  `ai_auto_join_tasks` keeps the
keys of the pending auto-join tasks. -/
structure Manager : Type where
  meeting_rooms : List (String × MeetingRoom)
  participant_to_room : List (String × String)
  ai_auto_join_tasks : List (String × Unit)
deriving DecidableEq, Repr

/-- `EnhancedSessionManager.__init__`. -/
def initialManager : Manager := ⟨[], [], []⟩

namespace Manager

/-- `EnhancedSessionManager.create_meeting_room`: idempotent, creates the
room only when absent. -/
def create_meeting_room (m : Manager) (room_id : String) (max_participants : Nat)
    (now : Int) : Manager :=
  if (lookupKey room_id m.meeting_rooms).isSome then m
  else { m with meeting_rooms :=
          insertKey room_id (mkRoom room_id max_participants now) m.meeting_rooms }

/-- `EnhancedSessionManager._cleanup_room`. -/
def cleanup_room (m : Manager) (room_id : String) : Manager :=
  { m with meeting_rooms := eraseKey room_id m.meeting_rooms,
           ai_auto_join_tasks := eraseKey room_id m.ai_auto_join_tasks }

/-- Body of `EnhancedSessionManager.join_meeting_room` once the room is
known to exist: attempts `add_participant`, and on success records the
participant-to-room mapping, the AI reference, the database/broadcast
effects, and possibly schedules the AI auto-join. -/
def join_into (m1 : Manager) (room_id user_id : String) (websocket : Nat)
    (participant_type : PType) (is_organizer : Bool) (now : Int) :
    Manager × Bool × List Event :=
  match lookupKey room_id m1.meeting_rooms with
  | none => (m1, false, [])
  | some room =>
    let p := mkParticipant user_id websocket participant_type is_organizer now
    let ar := room.add_participant p
    if ar.2 then
      let room2 := if participant_type = PType.ai
                   then { ar.1 with ai_participant := some p } else ar.1
      let autoJoin := participant_type = PType.human ∧
                      room2.get_human_participants.length = 1 ∧
                      room2.ai_participant = none
      let m2 := { m1 with
                  meeting_rooms := insertKey room_id room2 m1.meeting_rooms,
                  participant_to_room := insertKey user_id room_id m1.participant_to_room,
                  ai_auto_join_tasks :=
                    if autoJoin then insertKey room_id () m1.ai_auto_join_tasks
                    else m1.ai_auto_join_tasks }
      let evs := [Event.dbSaveParticipant user_id, Event.broadcastJoined user_id] ++
                 (if autoJoin then [Event.scheduleAutoJoin room_id] else [])
      (m2, true, evs)
    else (m1, false, [])

/-- `EnhancedSessionManager.join_meeting_room`: creates the room on demand
(with the default capacity 10) and delegates to `join_into`. -/
def join_meeting_room (m : Manager) (room_id user_id : String) (websocket : Nat)
    (participant_type : PType) (is_organizer : Bool) (now : Int) :
    Manager × Bool × List Event :=
  join_into
    (if (lookupKey room_id m.meeting_rooms).isSome then m
     else m.create_meeting_room room_id 10 now)
    room_id user_id websocket participant_type is_organizer now

/-- `EnhancedSessionManager.leave_meeting_room`: no-op returning `False`
when the participant has no room mapping, the mapped room is gone, or the
participant is not in the room; otherwise removes it, drops the mapping,
and cleans up the room when `should_cleanup` says so. -/
def leave_meeting_room (m : Manager) (user_id : String) (now : Int) :
    Manager × Bool × List Event :=
  match lookupKey user_id m.participant_to_room with
  | none => (m, false, [])
  | some room_id =>
    match lookupKey room_id m.meeting_rooms with
    | none => (m, false, [])
    | some room =>
      let rr := room.remove_participant user_id
      if rr.2 then
        let m1 := { m with
                    meeting_rooms := insertKey room_id rr.1 m.meeting_rooms,
                    participant_to_room := eraseKey user_id m.participant_to_room }
        let evs := [Event.dbLeft user_id, Event.broadcastLeft user_id]
        if rr.1.should_cleanup now then (m1.cleanup_room room_id, true, evs)
        else (m1, true, evs)
      else (m, false, [])

/-- `EnhancedSessionManager.handle_voice_activity`: delegates to the room
arbiter when the participant is mapped to a live room. -/
def handle_voice_activity (m : Manager) (user_id : String) (is_active : Bool)
    (now : Int) : Manager :=
  match lookupKey user_id m.participant_to_room with
  | none => m
  | some room_id =>
    match lookupKey room_id m.meeting_rooms with
    | none => m
    | some room =>
      { m with meeting_rooms :=
          insertKey room_id (room.set_voice_activity user_id is_active now) m.meeting_rooms }

end Manager

/-! ### `app/services/ai_meeting_orchestrator.py` — ConversationFlow -/

/-- `ConversationState` from `app/models/enhanced_schemas.py`. -/
inductive ConversationState : Type
  | waiting
  | active
  | ai_speaking
  | user_speaking
  | waiting_for_response
  | listening
  | processing
  | responding
  | completed
deriving DecidableEq, Repr

/-- One entry of `ConversationFlow.conversation_history`. -/
structure ChatMsg : Type where
  speaker : String
  message : String
  timestamp : Int
  speaker_id : Option String
deriving DecidableEq, Repr

/-- `ConversationFlow` mutable state.  `lead_company` stands for the only
field of `lead_data` the modelled operations read
(`lead_data.get('company', ...)`); the fixed `ai_response_delay` sleep
has no state effect and is omitted.  Times are milliseconds. -/
structure ConversationFlow : Type where
  meeting_id : String
  room_id : String
  state : ConversationState
  current_question_index : Nat
  questions : List String
  conversation_history : List ChatMsg
  lead_company : String
  silence_timeout : Int
  max_questions : Nat
  last_activity : Int
deriving DecidableEq, Repr

/-- `ConversationFlow.__init__`: waiting state, question index 0, empty
history, 5 s silence timeout, 7-question maximum. -/
def mkFlow (meeting_id room_id : String) (now : Int) : ConversationFlow :=
  ⟨meeting_id, room_id, ConversationState.waiting, 0, [], [], "", 5000, 7, now⟩

namespace ConversationFlow

/-- `ConversationFlow.initialize`: stores the lead data and the questions
obtained from the external question-generation collaborator (passed in
here as `qs`, its returned value). -/
def flowInit (f : ConversationFlow) (qs : List String) (company : String) :
    ConversationFlow :=
  { f with questions := qs, lead_company := company }

/-- `ConversationFlow._save_conversation_message`: appends to the
in-memory history (the database insert is external). -/
def saveMsg (f : ConversationFlow) (speaker message : String)
    (speaker_id : Option String) (now : Int) : ConversationFlow :=
  { f with conversation_history :=
      f.conversation_history ++ [⟨speaker, message, now, speaker_id⟩] }

/-- The fixed closing message of `ConversationFlow._complete_conversation`. -/
def completionMessage : String :=
  "Thank you for sharing all that information with me. Let me analyze what we have discussed and provide you with a summary."

/-- The fixed re-prompt of `ConversationFlow.handle_silence_timeout`. -/
def promptMessage : String :=
  "I am here when you are ready to continue. Would you like me to repeat the question?"

/-- `ConversationFlow.start_conversation`: with no questions, returns a
canned greeting without touching the state; otherwise moves to
`ai_speaking` and appends the greeting embedding the first question. -/
def start_conversation (f : ConversationFlow) (now : Int) : ConversationFlow × String :=
  match f.questions with
  | [] => (f, "Hello! I would like to learn more about your business needs. Can you tell me about your company?")
  | q0 :: _ =>
    let opening := "Hello! I am an AI assistant here to learn more about " ++
                   f.lead_company ++ ". " ++ q0
    let f1 := { f with state := ConversationState.ai_speaking }
    (f1.saveMsg "ai" opening none now, opening)

/-- `ConversationFlow._generate_next_question`: advances the question
index; uses the pre-generated question when one remains, otherwise the
contextual follow-up produced by the external generator (passed in as
`followUp`); moves to `ai_speaking` and appends the question. -/
def generate_next_question (f : ConversationFlow) (followUp : String) (now : Int) :
    ConversationFlow × String :=
  let idx := f.current_question_index + 1
  let q := match f.questions.get? idx with
           | some q => q
           | none => followUp
  let f1 := { f with current_question_index := idx, state := ConversationState.ai_speaking }
  (f1.saveMsg "ai" q none now, q)

/-- `ConversationFlow._complete_conversation`: terminal transition; the
question index is left untouched and the closing message is appended. -/
def complete_conversation (f : ConversationFlow) (now : Int) :
    ConversationFlow × String :=
  let f1 := { f with state := ConversationState.completed }
  (f1.saveMsg "ai" completionMessage none now, completionMessage)

/-- `ConversationFlow.process_user_response`: appends the user message,
refreshes `last_activity`, then completes once the history holds
`max_questions * 2` entries and otherwise emits the next question. -/
def process_user_response (f : ConversationFlow) (user_message user_id : String)
    (followUp : String) (now : Int) : ConversationFlow × String :=
  let f1 := f.saveMsg "human" user_message (some user_id) now
  let f2 := { f1 with last_activity := now }
  if f2.conversation_history.length ≥ f.max_questions * 2 then
    f2.complete_conversation now
  else
    f2.generate_next_question followUp now

/-- `ConversationFlow.should_prompt_user`: silence prompt predicate. -/
def should_prompt_user (f : ConversationFlow) (now : Int) : Bool :=
  if f.state = ConversationState.waiting_for_response then
    decide (now - f.last_activity > f.silence_timeout)
  else false

/-- `ConversationFlow.handle_silence_timeout`: emits and records the
gentle prompt when `should_prompt_user` holds; note that it appends to
the history but does not touch `last_activity`. -/
def handle_silence_timeout (f : ConversationFlow) (now : Int) :
    ConversationFlow × Option String :=
  if f.should_prompt_user now then
    (f.saveMsg "ai" promptMessage none now, some promptMessage)
  else (f, none)

end ConversationFlow

/-! ### `app/services/ai_meeting_orchestrator.py` — AIMeetingOrchestrator -/

/-- External side effects of `AIMeetingOrchestrator.join_scheduled_meeting`. -/
inductive OEvent : Type
  | dbStatusActive (meeting_id : String)
  | broadcastAiJoined (room_id : String)
  | voiceParticipantJoin (meeting_id : String)
  | speakMessage (text : String)
  | startMonitor (meeting_id : String)
deriving DecidableEq, Repr

/-- `AIMeetingOrchestrator` mutable state (`scheduled_joins` task handles
are not needed by the verified claims). -/
structure Orchestrator : Type where
  active_conversations : List (String × ConversationFlow)
deriving DecidableEq, Repr

namespace Orchestrator

/-- One poll of `AIMeetingOrchestrator._wait_for_participants`, iterated on
fuel: the loop polls the room snapshot every 5 seconds until the
10-minute bound, returning whether a human participant was seen.
`snap k` is the participant-kind snapshot at the k-th poll. -/
def waitLoop (snap : Nat → List PType) : Nat → Nat → Bool
  | _, 0 => false
  | k, Nat.succ fuel =>
    if (snap k).any (fun t => t = PType.human) then true
    else waitLoop snap (k + 1) fuel

/-- `AIMeetingOrchestrator._wait_for_participants` with the default
10-minute bound: at most 120 polls 5 seconds apart. -/
def wait_for_participants (snap : Nat → List PType) : Bool :=
  waitLoop snap 0 120

/-- `AIMeetingOrchestrator.join_scheduled_meeting`, on the path where the
meeting and lead records are found and no collaborator raises: it calls
`_wait_for_participants` but ignores the result, then unconditionally
creates and registers the `ConversationFlow`, marks the meeting active,
announces the agent, joins the voice participant, speaks the opening and
starts the monitor loop. -/
def join_scheduled_meeting (o : Orchestrator) (meeting_id room_id : String)
    (lead_company : String) (qs : List String) (snap : Nat → List PType)
    (now : Int) : Orchestrator × Bool × List OEvent :=
  let foundHumans := wait_for_participants snap
  -- the source drops this value on the floor and proceeds either way
  let conv0 := (mkFlow meeting_id room_id now).flowInit qs lead_company
  let sc := conv0.start_conversation now
  let o1 := { o with active_conversations :=
                insertKey meeting_id sc.1 o.active_conversations }
  let _ := foundHumans
  (o1, true,
    [OEvent.dbStatusActive meeting_id, OEvent.broadcastAiJoined room_id,
     OEvent.voiceParticipantJoin meeting_id, OEvent.speakMessage sc.2,
     OEvent.startMonitor meeting_id])

end Orchestrator

/-! ### Reachable session-manager states -/

/-- Manager states reachable from the fresh manager by any sequence of
create-room, join, leave and voice-activity operations. -/
inductive Reachable : Manager → Prop
  | init : Reachable initialManager
  | create (m : Manager) (room_id : String) (maxp : Nat) (now : Int) :
      Reachable m → Reachable (m.create_meeting_room room_id maxp now)
  | join (m : Manager) (room_id user_id : String) (ws : Nat) (k : PType)
      (org : Bool) (now : Int) :
      Reachable m → Reachable (m.join_meeting_room room_id user_id ws k org now).1
  | leave (m : Manager) (user_id : String) (now : Int) :
      Reachable m → Reachable (m.leave_meeting_room user_id now).1
  | voice (m : Manager) (user_id : String) (b : Bool) (now : Int) :
      Reachable m → Reachable (m.handle_voice_activity user_id b now)

/-- Every room of the manager respects its capacity bound. -/
def roomsBound (m : Manager) : Prop :=
  ∀ room_id r, lookupKey room_id m.meeting_rooms = some r →
    r.participants.length ≤ r.max_participants

/-! ### Derived definitions used by the verification -/

/-- A sequence of voice-activity flips `(user_id, is_active, now)` applied
one at a time, as the per-room signaling loop does. -/
def applyFlips (r : MeetingRoom) (fs : List (String × Bool × Int)) : MeetingRoom :=
  fs.foldl (fun s f => s.set_voice_activity f.1 f.2.1 f.2.2) r

/-- No participant of the room currently has its voice-activity flag set. -/
def roomNoneActive (r : MeetingRoom) : Bool :=
  r.participants.all (fun kv => !kv.2.voice_activity)

/-- Boolean form of the arbiter soundness property: whenever no
participant is active, `current_speaker` is cleared. -/
def noSpeakerWhenSilentB (r : MeetingRoom) : Bool :=
  !roomNoneActive r || r.current_speaker.isNone

/-- Events that signal a participant departing or its transport being
closed; `join_meeting_room` must never emit one of these. -/
def isDepartureEvent : Event → Bool
  | Event.dbLeft _ => true
  | Event.broadcastLeft _ => true
  | Event.closeTransport _ => true
  | _ => false

/-- One human turn fed to `process_user_response`: the message, the
sender, the follow-up question the external generator would produce if
consulted, and the clock value at the call. -/
structure UserTurn : Type where
  message : String
  user_id : String
  followUp : String
  now : Int
deriving DecidableEq, Repr

/-- Feed a list of user turns to the conversation flow, one
`process_user_response` call at a time, with no silence prompts
interleaved. -/
def runTurns (f : ConversationFlow) (ts : List UserTurn) : ConversationFlow :=
  ts.foldl (fun g t => (g.process_user_response t.message t.user_id t.followUp t.now).1) f

/-- A conversation flow as it stands right after `__init__`,
`initialize` (returning the nonempty question list `q0 :: qrest`) and
`start_conversation`: the opening message is the single history entry. -/
def startedFlow (meeting_id room_id company q0 : String) (qrest : List String)
    (t0 t1 : Int) : ConversationFlow :=
  (((mkFlow meeting_id room_id t0).flowInit (q0 :: qrest) company).start_conversation t1).1

/-! ### Concrete scenario states (inputs for witnesses and counterexamples) -/

/-- Manager after human `u1` joins fresh room `R` (capacity defaults to 10). -/
def exJoin1 : Manager :=
  (initialManager.join_meeting_room "R" "u1" 1 PType.human false 0).1

/-- The room `R` of `exJoin1`. -/
def exRoom1 : MeetingRoom :=
  (lookupKey "R" exJoin1.meeting_rooms).getD (mkRoom "" 0 0)

/-- `exJoin1` after `u1` flips voice activity on (becoming the speaker). -/
def exVoice1 : Manager := exJoin1.handle_voice_activity "u1" true 1

/-- `exVoice1` after `u1` leaves while still marked as current speaker. -/
def exLeft1 : Manager := (exVoice1.leave_meeting_room "u1" 2).1

/-- The room `R` of `exLeft1`: empty, yet `current_speaker` still `u1`. -/
def exRoomLeft1 : MeetingRoom :=
  (lookupKey "R" exLeft1.meeting_rooms).getD (mkRoom "" 0 0)

/-- A room holding two human participants `A` and `B`, nobody speaking. -/
def exRoomAB : MeetingRoom :=
  (((mkRoom "R2" 10 0).add_participant (mkParticipant "A" 1 PType.human false 0)).1.add_participant
    (mkParticipant "B" 2 PType.human false 0)).1

/-- `exRoomAB` after the flip sequence: `A` on, `B` on, `B` off.  Exactly
`A` is active afterwards, but the arbiter left `current_speaker = B`. -/
def exRoomCex : MeetingRoom :=
  applyFlips exRoomAB [("A", true, 1), ("B", true, 2), ("B", false, 3)]

/-- A manager holding room `S` of capacity 1, filled by `v1`. -/
def exFullManager : Manager :=
  ((initialManager.create_meeting_room "S" 1 0).join_meeting_room "S" "v1" 5 PType.human false 0).1

/-- The full room `S` of `exFullManager`. -/
def exFullRoom : MeetingRoom :=
  (lookupKey "S" exFullManager.meeting_rooms).getD (mkRoom "" 0 0)

/-- Manager with room `G` created at time 0 by `w1` joining; `w1` stays
until minute 6. -/
def exC7Join : Manager :=
  (initialManager.join_meeting_room "G" "w1" 2 PType.human false 0).1

/-- A manager whose participant-to-room map holds a stale entry: `u0` is
mapped to room `gone` which is no longer registered. -/
def exStaleManager : Manager := ⟨[], [("u0", "gone")], []⟩

/-- A conversation flow sitting in `waiting_for_response` since time 0
with the default 5 s silence timeout. -/
def exFlowWaiting : ConversationFlow :=
  { mkFlow "m1" "r1" 0 with state := ConversationState.waiting_for_response }

/-- Six concrete user turns. -/
def exTurns6 : List UserTurn :=
  [⟨"answer 1", "U1", "follow", 10⟩, ⟨"answer 2", "U1", "follow", 20⟩,
   ⟨"answer 3", "U1", "follow", 30⟩, ⟨"answer 4", "U1", "follow", 40⟩,
   ⟨"answer 5", "U1", "follow", 50⟩, ⟨"answer 6", "U1", "follow", 60⟩]

/-- A flow initialized with seven questions for lead `Acme` and started. -/
def exFlowStart : ConversationFlow :=
  startedFlow "M1" "R1" "Acme" "Q1" ["Q2", "Q3", "Q4", "Q5", "Q6", "Q7"] 0 1

/-- `exFlowStart` after the six turns of `exTurns6`. -/
def exFlowPre : ConversationFlow := runTurns exFlowStart exTurns6

/-- The seventh `process_user_response` call on `exFlowPre`. -/
def exFinal : ConversationFlow × String :=
  exFlowPre.process_user_response "answer 7" "U1" "follow" 99

/-- An orchestrator with no active conversations. -/
def exOrch : Orchestrator := ⟨[]⟩

/-- `join_scheduled_meeting` for meeting `M1` in room `R1` when no
participant is ever present in the room (the 10-minute wait expires). -/
def exJoinResult : Orchestrator × Bool × List OEvent :=
  exOrch.join_scheduled_meeting "M1" "R1" "Acme" ["Q1"] (fun _ => []) 0

/-! ### Lemmas about the association-list operations -/

theorem lookupKey_insertKey_self {α : Type} (k : String) (v : α) (l : List (String × α)) :
    lookupKey k (insertKey k v l) = some v := by
  induction l with
  | nil => simp [insertKey, lookupKey]
  | cons h t ih =>
    by_cases hk : h.1 = k
    · simp [insertKey, hk, lookupKey]
    · simp [insertKey, hk, lookupKey, ih]

theorem lookupKey_insertKey_ne {α : Type} (k k' : String) (v : α) (l : List (String × α))
    (h : k ≠ k') : lookupKey k' (insertKey k v l) = lookupKey k' l := by
  induction l with
  | nil => simp [insertKey, lookupKey, h]
  | cons hd t ih =>
    by_cases hk : hd.1 = k
    · subst hk
      simp [insertKey, lookupKey, h, ih]
    · simp only [insertKey, hk, if_false, lookupKey]
      by_cases hk' : hd.1 = k'
      · simp [hk']
      · simp [hk', ih]

theorem lookupKey_eraseKey_self {α : Type} (k : String) (l : List (String × α)) :
    lookupKey k (eraseKey k l) = none := by
  induction l with
  | nil => rfl
  | cons hd t ih =>
    by_cases hk : hd.1 = k
    · simp [eraseKey, hk, ih]
    · simp [eraseKey, hk, lookupKey, ih]

theorem lookupKey_eraseKey_ne {α : Type} (k k' : String) (l : List (String × α))
    (h : k ≠ k') : lookupKey k' (eraseKey k l) = lookupKey k' l := by
  induction l with
  | nil => rfl
  | cons hd t ih =>
    by_cases hk : hd.1 = k
    · subst hk
      simp [eraseKey, lookupKey, h, ih]
    · simp only [eraseKey, hk, if_false, lookupKey]
      by_cases hk' : hd.1 = k'
      · simp [hk']
      · simp [hk', ih]

theorem length_insertKey_le {α : Type} (k : String) (v : α) (l : List (String × α)) :
    (insertKey k v l).length ≤ l.length + 1 := by
  induction l with
  | nil => simp [insertKey]
  | cons hd t ih =>
    by_cases hk : hd.1 = k
    · simp [insertKey, hk]
    · simp only [insertKey, hk, if_false, List.length_cons]
      omega

theorem length_insertKey_of_mem {α : Type} (k : String) (v v' : α) (l : List (String × α))
    (h : lookupKey k l = some v') : (insertKey k v l).length = l.length := by
  induction l with
  | nil => simp [lookupKey] at h
  | cons hd t ih =>
    by_cases hk : hd.1 = k
    · simp [insertKey, hk]
    · simp only [lookupKey, hk, if_false] at h
      simp [insertKey, hk, ih h]

theorem lookupKey_insertKey_self_of_mem {α : Type} (k : String) (v : α) (l : List (String × α)) :
    lookupKey k (insertKey k v l) = some v := lookupKey_insertKey_self k v l

theorem length_eraseKey_le {α : Type} (k : String) (l : List (String × α)) :
    (eraseKey k l).length ≤ l.length := by
  induction l with
  | nil => simp [eraseKey]
  | cons hd t ih =>
    by_cases hk : hd.1 = k
    · simp only [eraseKey, hk, if_true, List.length_cons]
      omega
    · simp only [eraseKey, hk, if_false, List.length_cons]
      omega

theorem length_updateKey {α : Type} (k : String) (f : α → α) (l : List (String × α)) :
    (updateKey k f l).length = l.length := by
  induction l with
  | nil => rfl
  | cons hd t ih =>
    by_cases hk : hd.1 = k
    · simp [updateKey, hk]
    · simp [updateKey, hk, ih]

theorem lookupKey_updateKey_self {α : Type} (k : String) (f : α → α) (l : List (String × α))
    (v : α) (h : lookupKey k l = some v) :
    lookupKey k (updateKey k f l) = some (f v) := by
  induction l with
  | nil => simp [lookupKey] at h
  | cons hd t ih =>
    by_cases hk : hd.1 = k
    · simp only [lookupKey, hk, if_true, Option.some.injEq] at h
      simp [updateKey, hk, lookupKey, h]
    · simp only [lookupKey, hk, if_false] at h
      simp [updateKey, hk, lookupKey, ih h]

/-- A looked-up binding satisfies any predicate that holds of all entries. -/
theorem lookupKey_all {α : Type} (k : String) (l : List (String × α)) (v : α)
    (p : String × α → Bool) (hl : lookupKey k l = some v) (hall : l.all p = true) :
    p (k, v) = true := by
  induction l with
  | nil => simp [lookupKey] at hl
  | cons hd t ih =>
    simp only [List.all_cons, Bool.and_eq_true] at hall
    by_cases hk : hd.1 = k
    · simp only [lookupKey, hk, if_true, Option.some.injEq] at hl
      have : hd = (k, v) := by
        cases hd; simp_all
      rw [this] at hall
      exact hall.1
    · simp only [lookupKey, hk, if_false] at hl
      exact ih hl hall.2

theorem roomsBound_insert (m : Manager) (room_id : String) (r : MeetingRoom)
    (hm : roomsBound m) (hr : r.participants.length ≤ r.max_participants) :
    ∀ rid r', lookupKey rid (insertKey room_id r m.meeting_rooms) = some r' →
      r'.participants.length ≤ r'.max_participants := by
  intro rid r' hlook
  by_cases h : room_id = rid
  · subst h
    rw [lookupKey_insertKey_self] at hlook
    cases hlook
    exact hr
  · rw [lookupKey_insertKey_ne _ _ _ _ h] at hlook
    exact hm rid r' hlook

theorem roomsBound_create (m : Manager) (room_id : String) (maxp : Nat) (now : Int)
    (hm : roomsBound m) : roomsBound (m.create_meeting_room room_id maxp now) := by
  unfold Manager.create_meeting_room
  split
  · exact hm
  · exact roomsBound_insert m room_id _ hm (by simp [mkRoom])

theorem add_participant_length (room : MeetingRoom) (p : Participant)
    (hbound : room.participants.length ≤ room.max_participants) :
    (room.add_participant p).1.participants.length ≤
      (room.add_participant p).1.max_participants := by
  unfold MeetingRoom.add_participant
  split
  · exact hbound
  · simp only
    calc (insertKey p.user_id p room.participants).length
        ≤ room.participants.length + 1 := length_insertKey_le _ _ _
      _ ≤ room.max_participants := by omega

theorem roomsBound_join_into (m1 : Manager) (room_id user_id : String) (ws : Nat)
    (k : PType) (org : Bool) (now : Int) (hm1 : roomsBound m1) :
    roomsBound (m1.join_into room_id user_id ws k org now).1 := by
  unfold Manager.join_into
  cases hlook : lookupKey room_id m1.meeting_rooms with
  | none => exact hm1
  | some room =>
    dsimp only
    have hbound := hm1 room_id room hlook
    have hlen := add_participant_length room (mkParticipant user_id ws k org now) hbound
    split
    · set room2 := if k = PType.ai
        then { (room.add_participant (mkParticipant user_id ws k org now)).1 with
               ai_participant := some (mkParticipant user_id ws k org now) }
        else (room.add_participant (mkParticipant user_id ws k org now)).1 with hroom2
      have hlen2 : room2.participants.length ≤ room2.max_participants := by
        rw [hroom2]
        split <;> simpa using hlen
      exact roomsBound_insert m1 room_id room2 hm1 hlen2
    · exact hm1

theorem roomsBound_join (m : Manager) (room_id user_id : String) (ws : Nat)
    (k : PType) (org : Bool) (now : Int) (hm : roomsBound m) :
    roomsBound (m.join_meeting_room room_id user_id ws k org now).1 := by
  unfold Manager.join_meeting_room
  apply roomsBound_join_into
  split
  · exact hm
  · exact roomsBound_create m room_id 10 now hm

theorem roomsBound_leave (m : Manager) (user_id : String) (now : Int)
    (hm : roomsBound m) : roomsBound (m.leave_meeting_room user_id now).1 := by
  unfold Manager.leave_meeting_room
  cases hmap : lookupKey user_id m.participant_to_room with
  | none => exact hm
  | some room_id =>
    simp only
    cases hlook : lookupKey room_id m.meeting_rooms with
    | none => exact hm
    | some room =>
      simp only
      by_cases hrr : (room.remove_participant user_id).2 = true
      · simp only [hrr, if_true]
        have hbound := hm room_id room hlook
        have hlen : (room.remove_participant user_id).1.participants.length ≤
            (room.remove_participant user_id).1.max_participants := by
          unfold MeetingRoom.remove_participant
          split
          · simp only
            calc (eraseKey user_id room.participants).length
                ≤ room.participants.length := length_eraseKey_le _ _
              _ ≤ room.max_participants := hbound
          · exact hbound
        have hmid : ∀ rid r', lookupKey rid
            (insertKey room_id (room.remove_participant user_id).1 m.meeting_rooms) =
              some r' → r'.participants.length ≤ r'.max_participants :=
          roomsBound_insert m room_id _ hm hlen
        split
        · intro rid r' hl
          unfold Manager.cleanup_room at hl
          simp only at hl
          by_cases h : room_id = rid
          · subst h
            rw [lookupKey_eraseKey_self] at hl
            cases hl
          · rw [lookupKey_eraseKey_ne _ _ _ h] at hl
            exact hmid rid r' hl
        · exact hmid
      · simp only [hrr, if_false]
        exact hm

theorem leave_of_unmapped (m : Manager) (user_id : String) (now : Int)
    (h : lookupKey user_id m.participant_to_room = none) :
    m.leave_meeting_room user_id now = (m, false, []) := by
  unfold Manager.leave_meeting_room
  rw [h]

/-- The configurations in which `leave_meeting_room` takes one of its
failure branches: no mapping, dead room, or participant absent from the
room.  None of these branches reads the clock. -/
def leaveNoopCond (m : Manager) (user_id : String) : Prop :=
  match lookupKey user_id m.participant_to_room with
  | none => True
  | some room_id =>
    match lookupKey room_id m.meeting_rooms with
    | none => True
    | some room => (room.remove_participant user_id).2 = false

theorem leave_noop_of_cond (m : Manager) (user_id : String) (now : Int)
    (h : leaveNoopCond m user_id) :
    m.leave_meeting_room user_id now = (m, false, []) := by
  unfold Manager.leave_meeting_room
  unfold leaveNoopCond at h
  cases hmap : lookupKey user_id m.participant_to_room with
  | none => rfl
  | some room_id =>
    rw [hmap] at h
    dsimp only at h ⊢
    cases hlook : lookupKey room_id m.meeting_rooms with
    | none => rfl
    | some room =>
      rw [hlook] at h
      dsimp only at h ⊢
      simp [h]

theorem leave_unmaps_or_noop (m : Manager) (user_id : String) (now : Int) :
    lookupKey user_id (m.leave_meeting_room user_id now).1.participant_to_room = none ∨
    leaveNoopCond m user_id := by
  unfold Manager.leave_meeting_room leaveNoopCond
  cases hmap : lookupKey user_id m.participant_to_room with
  | none => exact Or.inr trivial
  | some room_id =>
    dsimp only
    cases hlook : lookupKey room_id m.meeting_rooms with
    | none => exact Or.inr trivial
    | some room =>
      dsimp only
      by_cases hrr : (room.remove_participant user_id).2 = true
      · simp only [hrr, if_true]
        split
        · exact Or.inl (by
            dsimp [Manager.cleanup_room]
            exact lookupKey_eraseKey_self user_id m.participant_to_room)
        · exact Or.inl (lookupKey_eraseKey_self user_id m.participant_to_room)
      · exact Or.inr (by simpa using hrr)

theorem roomsBound_voice (m : Manager) (user_id : String) (b : Bool) (now : Int)
    (hm : roomsBound m) : roomsBound (m.handle_voice_activity user_id b now) := by
  unfold Manager.handle_voice_activity
  cases hmap : lookupKey user_id m.participant_to_room with
  | none => exact hm
  | some room_id =>
    simp only
    cases hlook : lookupKey room_id m.meeting_rooms with
    | none => exact hm
    | some room =>
      simp only
      have hbound := hm room_id room hlook
      have hlen : (room.set_voice_activity user_id b now).participants.length ≤
          (room.set_voice_activity user_id b now).max_participants := by
        unfold MeetingRoom.set_voice_activity
        cases lookupKey user_id room.participants with
        | none => exact hbound
        | some p =>
          simp only
          split
          · simpa [length_updateKey] using hbound
          · split <;> simpa [length_updateKey] using hbound
      exact roomsBound_insert m room_id _ hm hlen

theorem reachable_roomsBound (m : Manager) (h : Reachable m) : roomsBound m := by
  induction h with
  | init =>
    intro rid r' hl
    simp [initialManager, lookupKey] at hl
  | create m rid maxp now _ ih => exact roomsBound_create m rid maxp now ih
  | join m rid uid ws k org now _ ih => exact roomsBound_join m rid uid ws k org now ih
  | leave m uid now _ ih => exact roomsBound_leave m uid now ih
  | voice m uid b now _ ih => exact roomsBound_voice m uid b now ih

theorem any_all_not_false {α : Type} (l : List α) (p : α → Bool)
    (h : l.any p = true) : l.all (fun x => !p x) = false := by
  obtain ⟨x, hx, hpx⟩ := List.any_eq_true.mp h
  cases hall : l.all (fun x => !p x) with
  | false => rfl
  | true =>
    have := List.all_eq_true.mp hall x hx
    rw [hpx] at this
    simp at this

theorem noSpeaker_flip (r : MeetingRoom) (user_id : String) (b : Bool) (now : Int)
    (h : noSpeakerWhenSilentB r = true) :
    noSpeakerWhenSilentB (r.set_voice_activity user_id b now) = true := by
  unfold MeetingRoom.set_voice_activity
  cases hmem : lookupKey user_id r.participants with
  | none => exact h
  | some p =>
    dsimp only
    cases b with
    | true =>
      rw [if_pos rfl]
      have hup := lookupKey_updateKey_self user_id
        (fun q => { q with voice_activity := true, last_activity := now })
        r.participants p hmem
      unfold noSpeakerWhenSilentB roomNoneActive
      dsimp only
      cases hall : (updateKey user_id
          (fun q => { q with voice_activity := true, last_activity := now })
          r.participants).all (fun kv => !kv.2.voice_activity) with
      | false => rfl
      | true =>
        have := lookupKey_all user_id _ _ (fun kv => !kv.2.voice_activity) hup hall
        simp at this
    | false =>
      rw [if_neg (by simp)]
      split
      · rename_i hany
        unfold noSpeakerWhenSilentB roomNoneActive
        dsimp only
        rw [any_all_not_false _ _ hany]
        rfl
      · unfold noSpeakerWhenSilentB
        simp

theorem noSpeaker_applyFlips (fs : List (String × Bool × Int)) (r : MeetingRoom)
    (h : noSpeakerWhenSilentB r = true) :
    noSpeakerWhenSilentB (applyFlips r fs) = true := by
  induction fs generalizing r with
  | nil => exact h
  | cons f t ih =>
    exact ih (r.set_voice_activity f.1 f.2.1 f.2.2) (noSpeaker_flip r f.1 f.2.1 f.2.2 h)

theorem process_step (f : ConversationFlow) (msg uid fu : String) (now : Int)
    (h7 : f.max_questions = 7) (hlen : f.conversation_history.length < 13) :
    (f.process_user_response msg uid fu now).1.conversation_history.length =
      f.conversation_history.length + 2 ∧
    (f.process_user_response msg uid fu now).1.max_questions = 7 := by
  unfold ConversationFlow.process_user_response
  dsimp only
  rw [if_neg (by
    simp only [ConversationFlow.saveMsg, List.length_append, List.length_cons,
      List.length_nil, h7]
    omega)]
  unfold ConversationFlow.generate_next_question ConversationFlow.saveMsg
  dsimp only
  constructor
  · simp only [List.length_append, List.length_cons, List.length_nil]
  · exact h7

theorem runTurns_accum (ts : List UserTurn) (f : ConversationFlow)
    (h7 : f.max_questions = 7)
    (hlen : f.conversation_history.length + 2 * ts.length ≤ 13) :
    (runTurns f ts).conversation_history.length =
      f.conversation_history.length + 2 * ts.length ∧
    (runTurns f ts).max_questions = 7 := by
  induction ts generalizing f with
  | nil =>
    exact ⟨by simp [runTurns], h7⟩
  | cons t ts ih =>
    have hlen' : f.conversation_history.length < 13 := by
      simp only [List.length_cons] at hlen
      omega
    have hstep := process_step f t.message t.user_id t.followUp t.now h7 hlen'
    have hrun : runTurns f (t :: ts) =
        runTurns (f.process_user_response t.message t.user_id t.followUp t.now).1 ts := rfl
    rw [hrun]
    have ih' := ih (f.process_user_response t.message t.user_id t.followUp t.now).1
      hstep.2 (by
        rw [hstep.1]
        simp only [List.length_cons] at hlen
        omega)
    refine ⟨?_, ih'.2⟩
    rw [ih'.1, hstep.1]
    simp only [List.length_cons]
    omega

theorem process_completes (f : ConversationFlow) (msg uid fu : String) (now : Int)
    (h7 : f.max_questions = 7) (hlen : f.conversation_history.length = 13) :
    (f.process_user_response msg uid fu now).1.state = ConversationState.completed ∧
    (f.process_user_response msg uid fu now).2 = ConversationFlow.completionMessage ∧
    (f.process_user_response msg uid fu now).1.current_question_index =
      f.current_question_index ∧
    (f.process_user_response msg uid fu now).1.conversation_history.length = 15 := by
  unfold ConversationFlow.process_user_response
  dsimp only
  rw [if_pos (by
    simp only [ConversationFlow.saveMsg, List.length_append, List.length_cons,
      List.length_nil, h7, hlen]
    omega)]
  unfold ConversationFlow.complete_conversation ConversationFlow.saveMsg
  dsimp only
  refine ⟨rfl, rfl, rfl, ?_⟩
  simp only [List.length_append, List.length_cons, List.length_nil, hlen]

/-! ### The claims -/

/-- C3 (amended): in every manager state reachable by create-room, join,
leave and voice-activity operations, every room satisfies
`|participants| ≤ max_participants`.  The second half of the original
claim — `current_speaker` is null or a key of the participant map — fails
on the code because `remove_participant` never clears `current_speaker`
(see the counterexample). -/
theorem c3_capacity_invariant (m : Manager) (room_id : String) (r : MeetingRoom)
    (h1 : Reachable m) (h2 : lookupKey room_id m.meeting_rooms = some r) :
    r.participants.length ≤ r.max_participants :=
  reachable_roomsBound m h1 room_id r h2

/-- Witness for C3: the capacity bound evaluated on the concrete reachable
state `exJoin1`. -/
theorem c3_capacity_invariant_witness :
    exRoom1.participants.length ≤ exRoom1.max_participants :=
  c3_capacity_invariant exJoin1 "R" exRoom1
    (Reachable.join initialManager "R" "u1" 1 PType.human false 0 Reachable.init)
    (by decide)

/-- Counterexample to C3 as stated: after `u1` joins room `R`, starts
speaking, and leaves, the reachable state `exLeft1` still records
`current_speaker = u1` although `u1` is no longer a key of the (now
empty) participant map. -/
theorem c3_counterexample :
    Reachable exLeft1 ∧
    lookupKey "R" exLeft1.meeting_rooms = some exRoomLeft1 ∧
    exRoomLeft1.current_speaker = some "u1" ∧
    lookupKey "u1" exRoomLeft1.participants = none :=
  ⟨Reachable.leave exVoice1 "u1" 2
      (Reachable.voice exJoin1 "u1" true 1
        (Reachable.join initialManager "R" "u1" 1 PType.human false 0 Reachable.init)),
   by decide, by decide, by decide⟩

/-- C4: joining a room whose participant count equals its capacity fails —
`join_meeting_room` returns `False` with no events — and the entire
manager state, in particular the room, is unchanged. -/
theorem c4_join_full_room_rejected (m : Manager) (room_id user_id : String)
    (ws : Nat) (k : PType) (org : Bool) (now : Int) (room : MeetingRoom)
    (hroom : lookupKey room_id m.meeting_rooms = some room)
    (hfull : room.participants.length = room.max_participants) :
    m.join_meeting_room room_id user_id ws k org now = (m, false, []) := by
  unfold Manager.join_meeting_room
  rw [if_pos (by rw [hroom]; rfl)]
  unfold Manager.join_into
  rw [hroom]
  dsimp only
  have har : (room.add_participant (mkParticipant user_id ws k org now)) = (room, false) := by
    unfold MeetingRoom.add_participant
    rw [if_pos (by omega)]
  rw [har]
  simp

/-- Witness for C4: joining the full one-seat room `S` of
`exFullManager` is rejected and changes nothing. -/
theorem c4_join_full_room_rejected_witness :
    exFullManager.join_meeting_room "S" "v2" 6 PType.human false 1 =
      (exFullManager, false, []) :=
  c4_join_full_room_rejected exFullManager "S" "v2" 6 PType.human false 1
    exFullRoom (by decide) (by decide)

/-- C7 (code evaluated at the failing input): room `G` is created at time
0 by `w1` joining and becomes empty only at minute 6, when `w1` leaves —
yet that leave destroys the room at once, because `should_cleanup`
measures the 5-minute grace period from `created_at` instead of from the
moment the room became empty (contradicting its own comment and the
spec). -/
theorem c7_room_destroyed_though_just_emptied :
    (exC7Join.leave_meeting_room "w1" 360001).2.1 = true ∧
    lookupKey "G" (exC7Join.leave_meeting_room "w1" 360001).1.meeting_rooms = none := by
  constructor
  · decide
  · decide

/-- C8: `leave` is idempotent — after one `leave_meeting_room` call for a
participant, a second call leaves the manager state exactly as the first
left it and returns `False`. -/
theorem c8_leave_idempotent (m : Manager) (user_id : String) (now now2 : Int) :
    ((m.leave_meeting_room user_id now).1.leave_meeting_room user_id now2).1 =
      (m.leave_meeting_room user_id now).1 ∧
    ((m.leave_meeting_room user_id now).1.leave_meeting_room user_id now2).2.1 = false := by
  rcases leave_unmaps_or_noop m user_id now with h | h
  · rw [leave_of_unmapped _ _ now2 h]
    exact ⟨rfl, rfl⟩
  · rw [leave_noop_of_cond m user_id now h]
    dsimp only
    rw [leave_noop_of_cond m user_id now2 h]
    exact ⟨rfl, rfl⟩

/-- C10: when a participant's room mapping is absent, or stale (the mapped
room is no longer registered), `leave_meeting_room` returns `False`,
emits nothing and leaves the manager — including any stale mapping —
unchanged; iterating the call any number of times still changes
nothing. -/
theorem c10_leave_stale_mapping_noop (m : Manager) (user_id room_id : String)
    (now : Int) (n : Nat)
    (h : lookupKey user_id m.participant_to_room = none ∨
         (lookupKey user_id m.participant_to_room = some room_id ∧
          lookupKey room_id m.meeting_rooms = none)) :
    m.leave_meeting_room user_id now = (m, false, []) ∧
    Nat.iterate (fun s => (s.leave_meeting_room user_id now).1) n m = m := by
  have hone : m.leave_meeting_room user_id now = (m, false, []) := by
    rcases h with h | ⟨hmap, hgone⟩
    · exact leave_of_unmapped m user_id now h
    · unfold Manager.leave_meeting_room
      rw [hmap]
      dsimp only
      rw [hgone]
  refine ⟨hone, ?_⟩
  induction n with
  | zero => rfl
  | succ n ih =>
    rw [Function.iterate_succ_apply]
    have hfm : (m.leave_meeting_room user_id now).1 = m := by rw [hone]
    rw [hfm]
    exact ih

/-- C1: for every conversation initialized with the 7-question maximum
and a nonempty question list, started with `start_conversation` and fed
six user responses with no silence prompts interleaved, the history then
holds 13 entries, so the seventh `process_user_response` call is the one
that brings it to 14: that call transitions the state to `completed`,
returns the closing message instead of a question, does not advance the
question index, and leaves the history at 15 entries (the 14 exchanged
messages plus the closing message). -/
theorem c1_completion_after_seven (meeting_id room_id company q0 : String)
    (qrest : List String) (t0 t1 : Int) (ts : List UserTurn) (t7 : UserTurn)
    (h6 : ts.length = 6) :
    (runTurns (startedFlow meeting_id room_id company q0 qrest t0 t1) ts).conversation_history.length = 13 ∧
    ((runTurns (startedFlow meeting_id room_id company q0 qrest t0 t1) ts).process_user_response
        t7.message t7.user_id t7.followUp t7.now).1.state = ConversationState.completed ∧
    ((runTurns (startedFlow meeting_id room_id company q0 qrest t0 t1) ts).process_user_response
        t7.message t7.user_id t7.followUp t7.now).2 = ConversationFlow.completionMessage ∧
    ((runTurns (startedFlow meeting_id room_id company q0 qrest t0 t1) ts).process_user_response
        t7.message t7.user_id t7.followUp t7.now).1.current_question_index =
      (runTurns (startedFlow meeting_id room_id company q0 qrest t0 t1) ts).current_question_index ∧
    ((runTurns (startedFlow meeting_id room_id company q0 qrest t0 t1) ts).process_user_response
        t7.message t7.user_id t7.followUp t7.now).1.conversation_history.length = 15 := by
  have hmax : (startedFlow meeting_id room_id company q0 qrest t0 t1).max_questions = 7 := rfl
  have hone : (startedFlow meeting_id room_id company q0 qrest t0 t1).conversation_history.length = 1 := rfl
  obtain ⟨hlen, hmax13⟩ := runTurns_accum ts
    (startedFlow meeting_id room_id company q0 qrest t0 t1) hmax
    (by rw [hone, h6])
  have hlen13 : (runTurns (startedFlow meeting_id room_id company q0 qrest t0 t1) ts).conversation_history.length = 13 := by
    rw [hlen, hone, h6]
  obtain ⟨hst, hmsg, hidx, hhist⟩ := process_completes
    (runTurns (startedFlow meeting_id room_id company q0 qrest t0 t1) ts)
    t7.message t7.user_id t7.followUp t7.now hmax13 hlen13
  exact ⟨hlen13, hst, hmsg, hidx, hhist⟩

/-- Witness for C1: the concrete seven-question conversation
`exFlowStart`, fed the six turns of `exTurns6` and then a seventh
answer. -/
theorem c1_completion_after_seven_witness :
    exFlowPre.conversation_history.length = 13 ∧
    exFinal.1.state = ConversationState.completed ∧
    exFinal.2 = ConversationFlow.completionMessage ∧
    exFinal.1.current_question_index = exFlowPre.current_question_index ∧
    exFinal.1.conversation_history.length = 15 :=
  c1_completion_after_seven "M1" "R1" "Acme" "Q1" ["Q2", "Q3", "Q4", "Q5", "Q6", "Q7"]
    0 1 exTurns6 ⟨"answer 7", "U1", "follow", 99⟩ (by decide)

/-- C5 (code evaluated at the failing input): when no participant is ever
present in the room, `_wait_for_participants` exhausts its full
10-minute bound and returns `False` — yet `join_scheduled_meeting`
ignores that result: it still registers a conversation flow for the
meeting, reports success, and announces the agent in the room, instead
of abandoning the auto-join as the claim requires. -/
theorem c5_autojoin_proceeds_without_humans :
    Orchestrator.wait_for_participants (fun _ => []) = false ∧
    (lookupKey "M1" exJoinResult.1.active_conversations).isSome = true ∧
    exJoinResult.2.1 = true ∧
    OEvent.broadcastAiJoined "R1" ∈ exJoinResult.2.2 :=
  ⟨by decide, by decide, by decide, by decide⟩

/-- C9: joining a room below capacity with a participant id that is
already present succeeds, replaces the stored participant with a fresh
one carrying the new transport, kind and joined-at timestamp, leaves the
participant count unchanged, and emits no departure event (no leave
broadcast, no database left-update, no transport close) for the replaced
participant. -/
theorem c9_rejoin_replaces (m : Manager) (room_id user_id : String) (ws : Nat)
    (k : PType) (org : Bool) (now : Int) (room : MeetingRoom) (oldp : Participant)
    (hroom : lookupKey room_id m.meeting_rooms = some room)
    (hlt : room.participants.length < room.max_participants)
    (hmem : lookupKey user_id room.participants = some oldp) :
    (m.join_meeting_room room_id user_id ws k org now).2.1 = true ∧
    (lookupKey room_id (m.join_meeting_room room_id user_id ws k org now).1.meeting_rooms).map
        (fun r2 => r2.participants.length) = some room.participants.length ∧
    (lookupKey room_id (m.join_meeting_room room_id user_id ws k org now).1.meeting_rooms).map
        (fun r2 => lookupKey user_id r2.participants) =
      some (some (mkParticipant user_id ws k org now)) ∧
    (m.join_meeting_room room_id user_id ws k org now).2.2.all
      (fun e => !isDepartureEvent e) = true := by
  unfold Manager.join_meeting_room
  rw [if_pos (by rw [hroom]; rfl)]
  unfold Manager.join_into
  rw [hroom]
  dsimp only
  have har : room.add_participant (mkParticipant user_id ws k org now) =
      ({ room with participants :=
          insertKey user_id (mkParticipant user_id ws k org now) room.participants },
        true) := by
    unfold MeetingRoom.add_participant
    rw [if_neg (by omega)]
    rfl
  rw [har]
  dsimp only
  rw [if_pos rfl]
  refine ⟨rfl, ?_, ?_, ?_⟩
  · rw [lookupKey_insertKey_self]
    dsimp only [Option.map]
    refine congrArg some ?_
    split
    · dsimp only
      exact length_insertKey_of_mem user_id _ oldp room.participants hmem
    · dsimp only
      exact length_insertKey_of_mem user_id _ oldp room.participants hmem
  · rw [lookupKey_insertKey_self]
    dsimp only [Option.map]
    refine congrArg some ?_
    split
    · dsimp only
      exact lookupKey_insertKey_self user_id _ room.participants
    · dsimp only
      exact lookupKey_insertKey_self user_id _ room.participants
  · split <;> split <;> rfl

/-- Witness for C9: `u1` re-joins room `R` of `exJoin1` with the new
transport 99 at time 50. -/
theorem c9_rejoin_replaces_witness :
    (exJoin1.join_meeting_room "R" "u1" 99 PType.human false 50).2.1 = true ∧
    (lookupKey "R" (exJoin1.join_meeting_room "R" "u1" 99 PType.human false 50).1.meeting_rooms).map
        (fun r2 => r2.participants.length) = some exRoom1.participants.length ∧
    (lookupKey "R" (exJoin1.join_meeting_room "R" "u1" 99 PType.human false 50).1.meeting_rooms).map
        (fun r2 => lookupKey "u1" r2.participants) =
      some (some (mkParticipant "u1" 99 PType.human false 50)) ∧
    (exJoin1.join_meeting_room "R" "u1" 99 PType.human false 50).2.2.all
      (fun e => !isDepartureEvent e) = true :=
  c9_rejoin_replaces exJoin1 "R" "u1" 99 PType.human false 50 exRoom1
    (mkParticipant "u1" 1 PType.human false 0) (by decide) (by decide) (by decide)

/-- C2 (amended): flipping a present participant active makes it
`current_speaker` with the speaking state chosen by its kind; flipping it
inactive clears `current_speaker` and sets the state to `active` exactly
when no participant remains active, and otherwise leaves
`current_speaker` and the state unchanged (the arbiter does not reassign
them to the remaining active participant); consequently, after any flip
sequence from a state satisfying it, the invariant "no active
participant implies no current speaker" still holds.  The original
claim's reassignment clause and its "exactly one active participant is
the current speaker" clause fail on the code (see the
counterexample). -/
theorem c2_arbiter_amended (r : MeetingRoom) (user_id : String) (p : Participant)
    (now : Int) (fs : List (String × Bool × Int))
    (hmem : lookupKey user_id r.participants = some p)
    (hinv : noSpeakerWhenSilentB r = true) :
    ((r.set_voice_activity user_id true now).current_speaker = some user_id ∧
     (r.set_voice_activity user_id true now).conversation_state =
       (if p.participant_type = PType.human then "user_speaking" else "ai_speaking")) ∧
    ((r.set_voice_activity user_id false now).current_speaker =
       (if (updateKey user_id
              (fun q => { q with voice_activity := false, last_activity := now })
              r.participants).any (fun kv => kv.2.voice_activity)
        then r.current_speaker else none) ∧
     (r.set_voice_activity user_id false now).conversation_state =
       (if (updateKey user_id
              (fun q => { q with voice_activity := false, last_activity := now })
              r.participants).any (fun kv => kv.2.voice_activity)
        then r.conversation_state else "active")) ∧
    noSpeakerWhenSilentB (applyFlips r fs) = true := by
  refine ⟨?_, ?_, noSpeaker_applyFlips fs r hinv⟩
  · unfold MeetingRoom.set_voice_activity
    rw [hmem]
    dsimp only
    rw [if_pos rfl]
    exact ⟨rfl, rfl⟩
  · unfold MeetingRoom.set_voice_activity
    rw [hmem]
    dsimp only
    rw [if_neg (by simp)]
    constructor
    · split
      · rfl
      · rfl
    · split
      · rfl
      · rfl

/-- Witness for C2 (amended), evaluated on the two-human room
`exRoomAB`: flipping `A` active makes `A` the speaker in state
`user_speaking`; flipping `A` inactive (from the silent start state)
clears the speaker; the silent-room invariant survives the flip sequence
`[A on]`. -/
theorem c2_arbiter_amended_witness :
    ((exRoomAB.set_voice_activity "A" true 5).current_speaker = some "A" ∧
     (exRoomAB.set_voice_activity "A" true 5).conversation_state =
       (if (mkParticipant "A" 1 PType.human false 0).participant_type = PType.human
        then "user_speaking" else "ai_speaking")) ∧
    ((exRoomAB.set_voice_activity "A" false 5).current_speaker =
       (if (updateKey "A"
              (fun q => { q with voice_activity := false, last_activity := (5 : Int) })
              exRoomAB.participants).any (fun kv => kv.2.voice_activity)
        then exRoomAB.current_speaker else none) ∧
     (exRoomAB.set_voice_activity "A" false 5).conversation_state =
       (if (updateKey "A"
              (fun q => { q with voice_activity := false, last_activity := (5 : Int) })
              exRoomAB.participants).any (fun kv => kv.2.voice_activity)
        then exRoomAB.conversation_state else "active")) ∧
    noSpeakerWhenSilentB (applyFlips exRoomAB [("A", true, 1)]) = true :=
  c2_arbiter_amended exRoomAB "A" (mkParticipant "A" 1 PType.human false 0) 5
    [("A", true, 1)] (by decide) (by decide)

/-- Counterexample to C2 as stated: in `exRoomCex` (reached by the flips
`A` on, `B` on, `B` off) exactly participant `A` is active, yet
`current_speaker` is still `B`: the arbiter neither reassigned the
speaker to the remaining active participant nor satisfies the
"exactly one active participant is the current speaker" clause. -/
theorem c2_counterexample :
    (exRoomCex.participants.filter (fun kv => kv.2.voice_activity)).map Prod.fst = ["A"] ∧
    exRoomCex.current_speaker = some "B" ∧
    ¬ exRoomCex.current_speaker = some "A" :=
  ⟨by decide, by decide, by decide⟩

/-- C6 (amended): `should_prompt_user` returns true exactly when the
state is `waiting_for_response` and the elapsed time since last activity
exceeds the silence timeout, and false in every other state; but
emitting the silence prompt does not reset `last_activity` (it only
appends the prompt to the history), so immediately after a prompt
`should_prompt_user` returns the same value as before — not false as the
original claim's scenario asserts (see the counterexample). -/
theorem c6_should_prompt_amended (f : ConversationFlow) (now : Int) :
    (f.should_prompt_user now = true ↔
      (f.state = ConversationState.waiting_for_response ∧
        now - f.last_activity > f.silence_timeout)) ∧
    (f.handle_silence_timeout now).1.last_activity = f.last_activity ∧
    (f.handle_silence_timeout now).1.state = f.state ∧
    (f.handle_silence_timeout now).1.should_prompt_user now = f.should_prompt_user now := by
  constructor
  · unfold ConversationFlow.should_prompt_user
    split
    · rename_i hstate
      simp [hstate]
    · rename_i hstate
      simp [hstate]
  · unfold ConversationFlow.handle_silence_timeout
    split
    · exact ⟨rfl, rfl, rfl⟩
    · exact ⟨rfl, rfl, rfl⟩

/-- Counterexample to C6 as stated: the flow `exFlowWaiting` is waiting
for a response since time 0 with a 5 s timeout; at 5.1 s the prompt
fires and is emitted, yet immediately afterwards `should_prompt_user`
still returns true at the very same instant — the prompt did not reset
last-activity. -/
theorem c6_counterexample :
    exFlowWaiting.should_prompt_user 5100 = true ∧
    (exFlowWaiting.handle_silence_timeout 5100).2 =
      some ConversationFlow.promptMessage ∧
    (exFlowWaiting.handle_silence_timeout 5100).1.should_prompt_user 5100 = true :=
  ⟨by decide, by decide, by decide⟩

/-- Witness for C10: leaving with the stale mapping of `exStaleManager`
(participant `u0` mapped to the vanished room `gone`) is a no-op three
times over. -/
theorem c10_leave_stale_mapping_noop_witness :
    exStaleManager.leave_meeting_room "u0" 7 = (exStaleManager, false, []) ∧
    Nat.iterate (fun s => (s.leave_meeting_room "u0" 7).1) 3 exStaleManager =
      exStaleManager :=
  c10_leave_stale_mapping_noop exStaleManager "u0" "gone" 7 3 (by decide)

end NIA
